import Mathlib

/-!
Verification of the pass-manager vault engine: a shallow embedding of
src/crypto_utils.py and src/password_manager.py.

Bytes are modeled as lists of naturals (List Nat): only lengths, positional
slicing and equality of byte strings matter for the verified claims, so the
individual byte values are left unbounded.  The external cryptographic
primitives from the cryptography library (AESGCM, PBKDF2HMAC) and the json
module are not part of this repository; they are modeled by their documented
contracts as ideal primitives: PBKDF2 as a deterministic, collision-free key
derivation, AES-GCM as an AEAD whose 16-byte tag authenticates key, nonce and
ciphertext exactly (ideal authenticity), and json.dumps / json.loads as an
injective serialization together with its partial inverse.
-/

namespace PassManager

/-- Byte strings, modeled as lists of naturals. -/
abbrev Bytes := List Nat

/-- SALT_SIZE from crypto_utils.py: salt length in bytes. -/
def SALT_SIZE : Nat := 32

/-- NONCE_SIZE from crypto_utils.py: GCM nonce length in bytes. -/
def NONCE_SIZE : Nat := 12

/-- KEY_SIZE from crypto_utils.py: AES-256 key length in bytes. -/
def KEY_SIZE : Nat := 32

/-- Length of the GCM authentication tag: the literal 16 in decrypt_data's
length check, and the 16 tag bytes AESGCM.encrypt appends. -/
def TAG_SIZE : Nat := 16

/-- Injective code of a string as a natural number; strings are serialized
through their character codepoints. -/
def strCode (s : String) : Nat :=
  Encodable.encode (s.toList.map Char.toNat)

/-- Partial inverse of strCode. -/
def strDecode (n : Nat) : Option String :=
  (@Encodable.decode (List Nat) _ n).map (fun l => (l.map Char.ofNat).asString)

theorem strDecode_strCode (s : String) : strDecode (strCode s) = some s := by
  simp only [strDecode, strCode, Encodable.encodek]
  have hc : Char.ofNat ∘ Char.toNat = id := funext Char.ofNat_toNat
  show some ((List.map Char.ofNat (List.map Char.toNat s.toList)).asString) = some s
  rw [List.map_map, hc, List.map_id]
  exact congrArg some (String.asString_toList s)

theorem char_toNat_injective : Function.Injective Char.toNat := by
  intro a b h
  have ha := Char.ofNat_toNat a
  rw [h, Char.ofNat_toNat] at ha
  exact ha.symm

theorem strCode_injective : Function.Injective strCode := by
  intro a b h
  have h1 := Encodable.encode_injective h
  have h2 := (List.map_injective_iff.mpr char_toNat_injective) h1
  exact String.toList_inj.mp h2

/-- PasswordEntry from password_manager.py: a dataclass with nine string
fields (created_at / updated_at default to the creation instant; the
defaulting happens at the call sites and is external input here). -/
structure PasswordEntry where
  id : String
  title : String
  username : String
  password : String
  url : String
  notes : String
  category : String
  created_at : String
  updated_at : String
deriving DecidableEq

/-- Injective code of a password entry as a natural number. -/
def entryCode (e : PasswordEntry) : Nat :=
  Nat.pair (strCode e.id) (Nat.pair (strCode e.title) (Nat.pair (strCode e.username)
    (Nat.pair (strCode e.password) (Nat.pair (strCode e.url) (Nat.pair (strCode e.notes)
      (Nat.pair (strCode e.category) (Nat.pair (strCode e.created_at)
        (strCode e.updated_at))))))))

/-- Partial inverse of entryCode. -/
def entryDecode (n : Nat) : Option PasswordEntry := do
  let p1 := Nat.unpair n
  let p2 := Nat.unpair p1.2
  let p3 := Nat.unpair p2.2
  let p4 := Nat.unpair p3.2
  let p5 := Nat.unpair p4.2
  let p6 := Nat.unpair p5.2
  let p7 := Nat.unpair p6.2
  let p8 := Nat.unpair p7.2
  let i ← strDecode p1.1
  let t ← strDecode p2.1
  let u ← strDecode p3.1
  let pw ← strDecode p4.1
  let ur ← strDecode p5.1
  let no ← strDecode p6.1
  let ca ← strDecode p7.1
  let cr ← strDecode p8.1
  let up ← strDecode p8.2
  pure ⟨i, t, u, pw, ur, no, ca, cr, up⟩

theorem entryDecode_entryCode (e : PasswordEntry) : entryDecode (entryCode e) = some e := by
  simp [entryDecode, entryCode, Nat.unpair_pair, strDecode_strCode]

/-- VaultDocument: the dictionary _save_vault serializes and unlock expects
back: a version tag, a last-updated timestamp and the list of entries. -/
structure VaultDocument where
  version : String
  updated_at : String
  entries : List PasswordEntry
deriving DecidableEq

/-- Decoder for a list of entry codes. -/
def decodeEntries : List Nat → Option (List PasswordEntry)
  | [] => some []
  | n :: ns => do
    let e ← entryDecode n
    let rest ← decodeEntries ns
    pure (e :: rest)

theorem decodeEntries_map (l : List PasswordEntry) :
    decodeEntries (l.map entryCode) = some l := by
  induction l with
  | nil => rfl
  | cons e t ih => simp [decodeEntries, entryDecode_entryCode, ih]

/-- Model of json.dumps(data, ensure_ascii=False).encode('utf-8') on the
vault document: an injective serialization to bytes. -/
def json_dumps (d : VaultDocument) : Bytes :=
  [Nat.pair (strCode d.version)
    (Nat.pair (strCode d.updated_at) (Encodable.encode (d.entries.map entryCode)))]

/-- Model of json.loads(plaintext.decode('utf-8')): the partial inverse of
json_dumps, failing on bytes that are not a serialized document. -/
def json_loads (b : Bytes) : Option VaultDocument :=
  match b with
  | [n] => do
    let p1 := Nat.unpair n
    let p2 := Nat.unpair p1.2
    let v ← strDecode p1.1
    let u ← strDecode p2.1
    let ents ← @Encodable.decode (List Nat) _ p2.2
    let entries ← decodeEntries ents
    pure ⟨v, u, entries⟩
  | _ => none

theorem json_loads_dumps (d : VaultDocument) : json_loads (json_dumps d) = some d := by
  simp [json_loads, json_dumps, Nat.unpair_pair, strDecode_strCode,
    Encodable.encodek, decodeEntries_map]

/-- Model of derive_key from crypto_utils.py.  PBKDF2-HMAC-SHA256 with
600000 iterations is an external primitive; it is modeled symbolically as
the pair of its two inputs, which realizes exactly the properties the code
relies on: determinism (the same password and salt always give the same key)
and collision-freeness (the ideal-KDF reading of the design). -/
structure DerivedKey where
  pw : String
  salt : Bytes
deriving DecidableEq

/-- Model of derive_key(master_password, salt). -/
def derive_key (master_password : String) (salt : Bytes) : DerivedKey :=
  ⟨master_password, salt⟩

/-- Authentication tag of the ideal AEAD model: 16 bytes whose first entry
is an injective code of the key, the nonce and the ciphertext body, so a tag
verifies under exactly one key/nonce/body triple. -/
def gcmTag (key : DerivedKey) (nonce : Bytes) (body : Bytes) : Bytes :=
  Nat.pair (strCode key.pw) (Nat.pair (Encodable.encode key.salt)
    (Nat.pair (Encodable.encode nonce) (Encodable.encode body))) :: List.replicate 15 0

theorem gcmTag_length (key : DerivedKey) (nonce body : Bytes) :
    (gcmTag key nonce body).length = TAG_SIZE := by
  simp [gcmTag, TAG_SIZE]

/-- Model of AESGCM(key).encrypt(nonce, plaintext, None): the ciphertext
body (the CTR keystream is a bijection on byte strings; confidentiality is
not at issue in the verified claims, so the body is the plaintext itself)
followed by the 16-byte authentication tag. -/
def aesgcm_encrypt (key : DerivedKey) (nonce : Bytes) (plaintext : Bytes) : Bytes :=
  plaintext ++ gcmTag key nonce plaintext

/-- Model of AESGCM(key).decrypt(nonce, ct, None): splits off the trailing
16-byte tag, re-computes it, and fails (InvalidTag) on truncation or any
mismatch, never returning partial plaintext. -/
def aesgcm_decrypt (key : DerivedKey) (nonce : Bytes) (ct : Bytes) : Option Bytes :=
  if ct.length < TAG_SIZE then none
  else
    let body := ct.take (ct.length - TAG_SIZE)
    let tag := ct.drop (ct.length - TAG_SIZE)
    if tag = gcmTag key nonce body then some body else none

theorem aesgcm_decrypt_encrypt (key : DerivedKey) (nonce pt : Bytes) :
    aesgcm_decrypt key nonce (aesgcm_encrypt key nonce pt) = some pt := by
  have hlen : (aesgcm_encrypt key nonce pt).length = pt.length + TAG_SIZE := by
    simp [aesgcm_encrypt, gcmTag_length]
  have htake : (aesgcm_encrypt key nonce pt).take pt.length = pt := List.take_left' rfl
  have hdrop : (aesgcm_encrypt key nonce pt).drop pt.length = gcmTag key nonce pt :=
    List.drop_left' rfl
  rw [aesgcm_decrypt, hlen]
  rw [if_neg (by omega)]
  simp [htake, hdrop]

theorem aesgcm_decrypt_wrong_key (key key' : DerivedKey) (nonce pt : Bytes)
    (h : key'.pw ≠ key.pw) :
    aesgcm_decrypt key' nonce (aesgcm_encrypt key nonce pt) = none := by
  have hlen : (aesgcm_encrypt key nonce pt).length = pt.length + TAG_SIZE := by
    simp [aesgcm_encrypt, gcmTag_length]
  have htake : (aesgcm_encrypt key nonce pt).take pt.length = pt := List.take_left' rfl
  have hdrop : (aesgcm_encrypt key nonce pt).drop pt.length = gcmTag key nonce pt :=
    List.drop_left' rfl
  rw [aesgcm_decrypt, hlen]
  rw [if_neg (by omega)]
  rw [Nat.add_sub_cancel, htake, hdrop]
  rw [if_neg]
  intro hcontra
  apply h
  have hhead := List.head_eq_of_cons_eq (congrArg id hcontra)
  have h1 := (Nat.pair_eq_pair.mp hhead).1
  exact (strCode_injective h1).symm

/-- CryptoError from crypto_utils.py; the three constructors carry the three
distinct raise sites of decrypt_data (the length gate, the AESGCM failure,
and the JSON parse failure).  To Python callers all three are the one
CryptoError class. -/
inductive CryptoError where
  | malformedInput
  | decryptFailed
  | malformedContent
deriving DecidableEq

/-- Model of encrypt_data(data, master_password) from crypto_utils.py.  The
salt and nonce are drawn from os.urandom by the source; randomness is
external, so they are passed as parameters (of lengths SALT_SIZE and
NONCE_SIZE respectively). -/
def encrypt_data (data : VaultDocument) (master_password : String)
    (salt nonce : Bytes) : Bytes :=
  salt ++ nonce ++ aesgcm_encrypt (derive_key master_password salt) nonce (json_dumps data)

/-- Model of decrypt_data(encrypted_data, master_password) from
crypto_utils.py: the positional length gate, the positional split into
salt, nonce and ciphertext, key derivation from the embedded salt, AEAD
open, and JSON parsing, each failure mapped to its CryptoError. -/
def decrypt_data (encrypted_data : Bytes) (master_password : String) :
    Except CryptoError VaultDocument :=
  if encrypted_data.length < SALT_SIZE + NONCE_SIZE + 16 then
    Except.error CryptoError.malformedInput
  else
    let salt := encrypted_data.take SALT_SIZE
    let nonce := (encrypted_data.drop SALT_SIZE).take NONCE_SIZE
    let ciphertext := encrypted_data.drop (SALT_SIZE + NONCE_SIZE)
    let key := derive_key master_password salt
    match aesgcm_decrypt key nonce ciphertext with
    | none => Except.error CryptoError.decryptFailed
    | some plaintext =>
      match json_loads plaintext with
      | none => Except.error CryptoError.malformedContent
      | some d => Except.ok d

theorem encrypt_data_parts (d : VaultDocument) (pw : String) (salt nonce : Bytes)
    (hs : salt.length = SALT_SIZE) (hn : nonce.length = NONCE_SIZE) :
    (encrypt_data d pw salt nonce).take SALT_SIZE = salt ∧
    ((encrypt_data d pw salt nonce).drop SALT_SIZE).take NONCE_SIZE = nonce ∧
    (encrypt_data d pw salt nonce).drop (SALT_SIZE + NONCE_SIZE) =
      aesgcm_encrypt (derive_key pw salt) nonce (json_dumps d) ∧
    SALT_SIZE + NONCE_SIZE + 16 ≤ (encrypt_data d pw salt nonce).length := by
  refine ⟨?_, ?_, ?_, ?_⟩
  · rw [encrypt_data, List.append_assoc]
    exact List.take_left' hs
  · rw [encrypt_data, List.append_assoc, List.drop_left' hs]
    exact List.take_left' hn
  · rw [encrypt_data]
    apply List.drop_left'
    simp [hs, hn]
  · have : (aesgcm_encrypt (derive_key pw salt) nonce (json_dumps d)).length =
        (json_dumps d).length + TAG_SIZE := by
      simp [aesgcm_encrypt, gcmTag_length]
    simp only [encrypt_data, List.length_append, hs, hn, this]
    simp [json_dumps, TAG_SIZE]

/-- Helper: full decode-of-encode round trip, shared by the claim theorems
and by the proofs about the _save_vault verification step. -/
theorem decrypt_encrypt_eq_ok (d : VaultDocument) (pw : String) (salt nonce : Bytes)
    (hs : salt.length = SALT_SIZE) (hn : nonce.length = NONCE_SIZE) :
    decrypt_data (encrypt_data d pw salt nonce) pw = Except.ok d := by
  obtain ⟨h1, h2, h3, h4⟩ := encrypt_data_parts d pw salt nonce hs hn
  rw [decrypt_data, if_neg (by omega)]
  simp only [h1, h2, h3]
  rw [aesgcm_decrypt_encrypt]
  simp [json_loads_dumps]

/-- Helper: decrypting an encoding under a different password fails with the
AEAD-failure error, shared with the store-level proofs. -/
theorem decrypt_encrypt_wrong_pw (d : VaultDocument) (pw1 pw2 : String) (salt nonce : Bytes)
    (hs : salt.length = SALT_SIZE) (hn : nonce.length = NONCE_SIZE) (hne : pw1 ≠ pw2) :
    decrypt_data (encrypt_data d pw1 salt nonce) pw2 =
      Except.error CryptoError.decryptFailed := by
  obtain ⟨h1, h2, h3, h4⟩ := encrypt_data_parts d pw1 salt nonce hs hn
  rw [decrypt_data, if_neg (by omega)]
  simp only [h1, h2, h3]
  rw [aesgcm_decrypt_wrong_key]
  intro hc
  exact hne (hc.symm)

/-- Claim C4: for every vault document D, password P, and salt and nonce of
the sizes the source draws from os.urandom, decoding an encoding
round-trips: decrypt_data (encrypt_data D P) P = D. -/
theorem decode_encode_roundtrip (d : VaultDocument) (pw : String) (salt nonce : Bytes)
    (hs : salt.length = SALT_SIZE) (hn : nonce.length = NONCE_SIZE) :
    decrypt_data (encrypt_data d pw salt nonce) pw = Except.ok d :=
  decrypt_encrypt_eq_ok d pw salt nonce hs hn

/-- Witness for C4 at a concrete document, password, salt and nonce. -/
theorem decode_encode_roundtrip_witness :
    decrypt_data (encrypt_data ⟨"1.0", "2024-01-01", []⟩ "password123"
      (List.replicate 32 0) (List.replicate 12 1)) "password123" =
      Except.ok ⟨"1.0", "2024-01-01", []⟩ :=
  decode_encode_roundtrip ⟨"1.0", "2024-01-01", []⟩ "password123"
    (List.replicate 32 0) (List.replicate 12 1) (by decide) (by decide)

/-- Claim C5: for every document D and distinct passwords P1 and P2,
decrypt_data (encrypt_data D P1) P2 fails by raising CryptoError, through
the same opaque AEAD-failure cause that corrupted data reports, never as
partial plaintext. -/
theorem decode_wrong_password_fails (d : VaultDocument) (pw1 pw2 : String)
    (salt nonce : Bytes) (hs : salt.length = SALT_SIZE) (hn : nonce.length = NONCE_SIZE)
    (hne : pw1 ≠ pw2) :
    decrypt_data (encrypt_data d pw1 salt nonce) pw2 =
      Except.error CryptoError.decryptFailed :=
  decrypt_encrypt_wrong_pw d pw1 pw2 salt nonce hs hn hne

/-- Witness for C5 at a concrete document and a concrete pair of distinct
passwords. -/
theorem decode_wrong_password_fails_witness :
    decrypt_data (encrypt_data ⟨"1.0", "2024-01-01", []⟩ "password123"
      (List.replicate 32 0) (List.replicate 12 1)) "different456" =
      Except.error CryptoError.decryptFailed :=
  decode_wrong_password_fails ⟨"1.0", "2024-01-01", []⟩ "password123" "different456"
    (List.replicate 32 0) (List.replicate 12 1) (by decide) (by decide) (by decide)

/-- Counterexample to claim C3 as stated: the claim puts the positional
length gate at 48 bytes and says blobs of length 48 or more pass it, but a
blob of length exactly 48 is rejected as malformed input, because the gate
in the source is SALT_SIZE + NONCE_SIZE + 16 = 60 bytes. -/
theorem decrypt_length_gate_counterexample :
    decrypt_data (List.replicate 48 0) "p" = Except.error CryptoError.malformedInput := by
  rfl

/-- Claim C3 amended: decrypt_data rejects a blob as MalformedInput exactly
when it is shorter than salt + nonce + minimum tag length = 32 + 12 + 16 =
60 bytes (the claim said 48); the rejection is the first check, before the
positional split and before any key derivation or decryption, and no later
branch reports malformed input. -/
theorem decrypt_length_gate_iff (enc : Bytes) (pw : String) :
    decrypt_data enc pw = Except.error CryptoError.malformedInput ↔
      enc.length < SALT_SIZE + NONCE_SIZE + 16 := by
  constructor
  · intro h
    by_contra hlen
    rw [decrypt_data, if_neg hlen] at h
    dsimp only at h
    split at h
    · simp at h
    · split at h
      · simp at h
      · simp at h
  · intro h
    rw [decrypt_data, if_pos h]

/-- Witness for the amended C3 at a concrete short blob. -/
theorem decrypt_length_gate_iff_witness :
    decrypt_data [] "q" = Except.error CryptoError.malformedInput :=
  (decrypt_length_gate_iff [] "q").mpr (by decide)

/-- Model of compute_file_checksum from crypto_utils.py: SHA-256 of the file
contents, modeled as an injective digest of the byte string. -/
def compute_file_checksum (contents : Bytes) : Nat :=
  Encodable.encode contents

/-- VERSION from PasswordManager: the file format version tag. -/
def VERSION : String := "1.0"

/-- In-memory state of a PasswordManager instance: the fields assigned in
__init__ and mutated by the session and entry operations.  The vault_path
and backup_dir fields of the source are constant configuration strings; the
files they denote are modeled separately by the FS structure below. -/
structure PasswordManager where
  master_password : Option String
  entries : List (String × PasswordEntry)
  is_unlocked : Bool
  last_save_checksum : Option Nat
deriving DecidableEq

/-- Model of lock(): clears the master password and the entry table and
drops the unlocked flag. -/
def lock (pm : PasswordManager) : PasswordManager :=
  { pm with master_password := none, entries := [], is_unlocked := false }

/-- Model of get_entry(entry_id): a plain dictionary get with no unlock
check, so it never raises; on a locked (cleared) store it returns None. -/
def get_entry (pm : PasswordManager) (entry_id : String) : Option PasswordEntry :=
  pm.entries.lookup entry_id

/-- Model of get_all_entries(): the dictionary values in order, again with
no unlock check. -/
def get_all_entries (pm : PasswordManager) : List PasswordEntry :=
  pm.entries.map Prod.snd

/-- Helper for the Python substring test: does the first list start with the
second one. -/
def listStartsWith : List Char → List Char → Bool
  | _, [] => true
  | [], _ :: _ => false
  | a :: as, b :: bs => a == b && listStartsWith as bs

/-- Helper for the Python substring test: does the needle occur contiguously
inside the haystack (the semantics of the Python in operator on strings). -/
def hasSub : List Char → List Char → Bool
  | [], needle => needle.isEmpty
  | a :: as, needle => listStartsWith (a :: as) needle || hasSub as needle

/-- Model of the expression (query in s) on Python strings. -/
def strContainsSub (hay needle : String) : Bool :=
  hasSub hay.toList needle.toList

/-- Model of search_entries(query): lowercases the query and keeps the
entries whose title, username, url, category or notes contain it; there is
no unlock check, so on a locked (cleared) store the result is empty. -/
def search_entries (pm : PasswordManager) (query : String) : List PasswordEntry :=
  let q := query.toLower
  (pm.entries.map Prod.snd).filter (fun entry =>
    strContainsSub entry.title.toLower q ||
    strContainsSub entry.username.toLower q ||
    strContainsSub entry.url.toLower q ||
    strContainsSub entry.category.toLower q ||
    strContainsSub entry.notes.toLower q)

/-- Model of one backup snapshot file in the backup directory: the file
vault_backup_{stamp}.dat with its modification time and contents.  The
engine itself writes only such files there (its listdir filters select
exactly the names it creates), so the backup directory is modeled as a list
of snapshots. -/
structure Snap where
  stamp : String
  mtime : Nat
  contents : Bytes
deriving DecidableEq

/-- Result shape of get_stats(). -/
structure Stats where
  total_entries : Nat
  categories : List (String × Nat)
  backup_count : Nat
deriving DecidableEq

/-- Model of one step of the category tally in get_stats:
categories[cat] = categories.get(cat, 0) + 1. -/
def bumpCategory (cats : List (String × Nat)) (cat : String) : List (String × Nat) :=
  match cats.lookup cat with
  | some n => cats.map (fun p => if p.1 = cat then (cat, n + 1) else p)
  | none => cats ++ [(cat, 1)]

/-- Model of get_stats(): entry total, per-category tallies (both computed
from the in-memory table with no unlock check) and the count of backup
files (the snapshots present in the backup directory, passed in as the
directory listing). -/
def get_stats (pm : PasswordManager) (backupFiles : List Snap) : Stats :=
  { total_entries := pm.entries.length,
    categories := (pm.entries.map Prod.snd).foldl
      (fun cats e => bumpCategory cats e.category) [],
    backup_count := backupFiles.length }

/-- Claim C10: the read operations get_entry, get_all_entries,
search_entries and get_stats never raise a not-unlocked error: none of them
checks is_unlocked (their embeddings are total functions, not error-valued
ones), and in the Locked state produced by lock(), where the entry table
has been cleared, they return None, the empty list, the empty list, and
zero entry counts respectively. -/
theorem reads_never_require_unlock (pm : PasswordManager)
    (entry_id query : String) (backupFiles : List Snap) :
    get_entry (lock pm) entry_id = none ∧
    get_all_entries (lock pm) = [] ∧
    search_entries (lock pm) query = [] ∧
    (get_stats (lock pm) backupFiles).total_entries = 0 ∧
    (get_stats (lock pm) backupFiles).categories = [] := by
  refine ⟨rfl, rfl, rfl, rfl, rfl⟩

/-- Errors raised by the mutation API of PasswordManager: the RuntimeError
for a locked store, and the KeyError for an absent entry id. -/
inductive StoreError where
  | notUnlocked
  | keyError
deriving DecidableEq

/-- Model of one setattr step of update_entry: a provided keyword argument
is merged into the entry when it names one of the entry's attributes
(hasattr) and is not id or created_at; anything else is ignored. -/
def applyField (e : PasswordEntry) (p : String × String) : PasswordEntry :=
  if p.1 = "title" then { e with title := p.2 }
  else if p.1 = "username" then { e with username := p.2 }
  else if p.1 = "password" then { e with password := p.2 }
  else if p.1 = "url" then { e with url := p.2 }
  else if p.1 = "notes" then { e with notes := p.2 }
  else if p.1 = "category" then { e with category := p.2 }
  else if p.1 = "updated_at" then { e with updated_at := p.2 }
  else e

/-- Specification device for the merge: the value a given field has after
folding the keyword arguments over a default (the last provided value wins;
Python keyword arguments are unique, so it is the provided value). -/
def mergeVal (key : String) (dflt : String) (kwargs : List (String × String)) : String :=
  kwargs.foldl (fun acc q => if q.1 = key then q.2 else acc) dflt

/-- Frame fact about the merge device: a field that no keyword argument
names keeps its default. -/
theorem mergeVal_of_not_provided (key dflt : String) (kwargs : List (String × String))
    (h : key ∉ kwargs.map Prod.fst) : mergeVal key dflt kwargs = dflt := by
  induction kwargs generalizing dflt with
  | nil => rfl
  | cons p rest ih =>
    simp only [List.map_cons, List.mem_cons] at h
    push_neg at h
    show mergeVal key (if p.1 = key then p.2 else dflt) rest = dflt
    rw [if_neg (fun hc => h.1 hc.symm)]
    exact ih dflt h.2

theorem applyField_id (e : PasswordEntry) (p : String × String) :
    (applyField e p).id = e.id := by
  unfold applyField
  split_ifs <;> rfl

theorem applyField_created_at (e : PasswordEntry) (p : String × String) :
    (applyField e p).created_at = e.created_at := by
  unfold applyField
  split_ifs <;> rfl

theorem applyField_title (e : PasswordEntry) (p : String × String) :
    (applyField e p).title = if p.1 = "title" then p.2 else e.title := by
  unfold applyField
  split_ifs <;> simp_all

theorem applyField_username (e : PasswordEntry) (p : String × String) :
    (applyField e p).username = if p.1 = "username" then p.2 else e.username := by
  unfold applyField
  split_ifs <;> simp_all

theorem applyField_password (e : PasswordEntry) (p : String × String) :
    (applyField e p).password = if p.1 = "password" then p.2 else e.password := by
  unfold applyField
  split_ifs <;> simp_all

theorem applyField_url (e : PasswordEntry) (p : String × String) :
    (applyField e p).url = if p.1 = "url" then p.2 else e.url := by
  unfold applyField
  split_ifs <;> simp_all

theorem applyField_notes (e : PasswordEntry) (p : String × String) :
    (applyField e p).notes = if p.1 = "notes" then p.2 else e.notes := by
  unfold applyField
  split_ifs <;> simp_all

theorem applyField_category (e : PasswordEntry) (p : String × String) :
    (applyField e p).category = if p.1 = "category" then p.2 else e.category := by
  unfold applyField
  split_ifs <;> simp_all

theorem foldl_applyField_fields (kwargs : List (String × String)) (e : PasswordEntry) :
    (kwargs.foldl applyField e).id = e.id ∧
    (kwargs.foldl applyField e).created_at = e.created_at ∧
    (kwargs.foldl applyField e).title = mergeVal "title" e.title kwargs ∧
    (kwargs.foldl applyField e).username = mergeVal "username" e.username kwargs ∧
    (kwargs.foldl applyField e).password = mergeVal "password" e.password kwargs ∧
    (kwargs.foldl applyField e).url = mergeVal "url" e.url kwargs ∧
    (kwargs.foldl applyField e).notes = mergeVal "notes" e.notes kwargs ∧
    (kwargs.foldl applyField e).category = mergeVal "category" e.category kwargs := by
  induction kwargs generalizing e with
  | nil => exact ⟨rfl, rfl, rfl, rfl, rfl, rfl, rfl, rfl⟩
  | cons p rest ih =>
    obtain ⟨h1, h2, h3, h4, h5, h6, h7, h8⟩ := ih (applyField e p)
    simp only [List.foldl_cons]
    refine ⟨?_, ?_, ?_, ?_, ?_, ?_, ?_, ?_⟩
    · rw [h1, applyField_id]
    · rw [h2, applyField_created_at]
    · rw [h3, applyField_title]; rfl
    · rw [h4, applyField_username]; rfl
    · rw [h5, applyField_password]; rfl
    · rw [h6, applyField_url]; rfl
    · rw [h7, applyField_notes]; rfl
    · rw [h8, applyField_category]; rfl

/-- Model of writing self.entries[entry_id] = entry for a key that is
already present: a Python dict update keeps the key in place. -/
def dictSet (entries : List (String × PasswordEntry)) (k : String)
    (v : PasswordEntry) : List (String × PasswordEntry) :=
  entries.map (fun p => if p.1 = k then (k, v) else p)

theorem lookup_dictSet_self (entries : List (String × PasswordEntry))
    (k : String) (v w : PasswordEntry) (h : entries.lookup k = some w) :
    (dictSet entries k v).lookup k = some v := by
  induction entries with
  | nil => simp [List.lookup] at h
  | cons p rest ih =>
    obtain ⟨pk, pv⟩ := p
    by_cases hk : pk = k
    · have hstep : dictSet ((pk, pv) :: rest) k v = (k, v) :: dictSet rest k v := by
        simp [dictSet, hk]
      rw [hstep]
      simp [List.lookup]
    · have hstep : dictSet ((pk, pv) :: rest) k v = (pk, pv) :: dictSet rest k v := by
        simp [dictSet, hk]
      have hne : (k == pk) = false := by
        simp only [beq_eq_false_iff_ne, ne_eq]
        exact fun hc => hk hc.symm
      rw [hstep]
      simp only [List.lookup, hne] at h ⊢
      exact ih h

theorem lookup_dictSet_other (entries : List (String × PasswordEntry))
    (k : String) (v : PasswordEntry) (k' : String) (h : k' ≠ k) :
    (dictSet entries k v).lookup k' = entries.lookup k' := by
  induction entries with
  | nil => rfl
  | cons p rest ih =>
    obtain ⟨pk, pv⟩ := p
    by_cases hk : pk = k
    · have hstep : dictSet ((pk, pv) :: rest) k v = (k, v) :: dictSet rest k v := by
        simp [dictSet, hk]
      have h1 : (k' == k) = false := by
        simp only [beq_eq_false_iff_ne, ne_eq]
        exact h
      have h2 : (k' == pk) = false := by rw [hk]; exact h1
      rw [hstep]
      simp only [List.lookup, h1, h2]
      exact ih
    · have hstep : dictSet ((pk, pv) :: rest) k v = (pk, pv) :: dictSet rest k v := by
        simp [dictSet, hk]
      rw [hstep]
      by_cases hk' : k' = pk
      · simp [List.lookup, hk']
      · have h2 : (k' == pk) = false := by
          simp only [beq_eq_false_iff_ne, ne_eq]
          exact hk'
        simp only [List.lookup, h2]
        exact ih

/-- Model of update_entry(entry_id, **kwargs) from password_manager.py: a
locked store raises RuntimeError; an absent id raises KeyError before any
change; otherwise the provided keyword arguments are merged into the entry
(id and created_at are explicitly excluded by the source, unknown names
fail the hasattr test), updated_at is refreshed to the current instant, and
the updated entry is returned.  An error result models the raise happening
with the table unchanged; the subsequent _save_vault call persists the new
table through the durable-write protocol modeled separately and does not
touch the table itself. -/
def update_entry (pm : PasswordManager) (entry_id : String)
    (kwargs : List (String × String)) (now : String) :
    Except StoreError (PasswordManager × PasswordEntry) :=
  if ¬ pm.is_unlocked then Except.error StoreError.notUnlocked
  else
    match pm.entries.lookup entry_id with
    | none => Except.error StoreError.keyError
    | some entry =>
      let merged := kwargs.foldl applyField entry
      let merged' := { merged with updated_at := now }
      Except.ok ({ pm with entries := dictSet pm.entries entry_id merged' }, merged')

/-- Claim C7: for every unlocked store, update_entry on an existing id
merges only the provided fields into that entry (each settable field takes
the provided value, characterized by mergeVal; by mergeVal_of_not_provided
a field no keyword argument names keeps its old value), never changes the
entry's id or created_at, refreshes updated_at to the call instant, leaves
every other entry and the rest of the manager state untouched, and for an
absent id it raises KeyError with nothing changed (the error result carries
no new state). -/
theorem update_entry_spec (pm : PasswordManager) (entry_id : String)
    (kwargs : List (String × String)) (now : String) (hu : pm.is_unlocked = true) :
    (pm.entries.lookup entry_id = none →
      update_entry pm entry_id kwargs now = Except.error StoreError.keyError) ∧
    (∀ e, pm.entries.lookup entry_id = some e →
      ∃ pm' e', update_entry pm entry_id kwargs now = Except.ok (pm', e') ∧
        e'.id = e.id ∧ e'.created_at = e.created_at ∧ e'.updated_at = now ∧
        e'.title = mergeVal "title" e.title kwargs ∧
        e'.username = mergeVal "username" e.username kwargs ∧
        e'.password = mergeVal "password" e.password kwargs ∧
        e'.url = mergeVal "url" e.url kwargs ∧
        e'.notes = mergeVal "notes" e.notes kwargs ∧
        e'.category = mergeVal "category" e.category kwargs ∧
        pm'.entries.lookup entry_id = some e' ∧
        (∀ k', k' ≠ entry_id → pm'.entries.lookup k' = pm.entries.lookup k') ∧
        pm'.master_password = pm.master_password ∧
        pm'.is_unlocked = pm.is_unlocked ∧
        pm'.last_save_checksum = pm.last_save_checksum) := by
  constructor
  · intro hnone
    simp [update_entry, hu, hnone]
  · intro e he
    obtain ⟨h1, h2, h3, h4, h5, h6, h7, h8⟩ := foldl_applyField_fields kwargs e
    refine ⟨⟨pm.master_password,
        dictSet pm.entries entry_id { kwargs.foldl applyField e with updated_at := now },
        pm.is_unlocked, pm.last_save_checksum⟩,
      { kwargs.foldl applyField e with updated_at := now }, ?_, h1, h2, rfl,
      h3, h4, h5, h6, h7, h8, ?_, ?_, rfl, rfl, rfl⟩
    · simp [update_entry, hu, he]
    · exact lookup_dictSet_self pm.entries entry_id _ e he
    · intro k' hk'
      exact lookup_dictSet_other pm.entries entry_id _ k' hk'

/-- Concrete unlocked manager used by witnesses. -/
def pmW : PasswordManager :=
  ⟨some "password123",
    [("id1", ⟨"id1", "GitHub", "me", "x1", "", "", "default", "c0", "c0"⟩)],
    true, none⟩

/-- Witness for C7: the theorem applied to a concrete unlocked manager and
an absent entry id. -/
theorem update_entry_spec_witness :
    pmW.is_unlocked = true ∧
    update_entry pmW "id2" [("title", "New")] "T" = Except.error StoreError.keyError :=
  ⟨rfl, (update_entry_spec pmW "id2" [("title", "New")] "T" rfl).1 (by decide)⟩

/-- Errors unlock can raise: the FileNotFoundError for a missing vault
file. -/
inductive UnlockError where
  | fileNotFound
deriving DecidableEq

/-- Model of unlock(master_password) from password_manager.py: a missing
vault file raises FileNotFoundError; otherwise the file bytes are read and
decrypted, and on CryptoError the function returns False having assigned
none of the instance fields (the entry table, master password, unlocked
flag and cached checksum are written only after a successful decrypt).  The
vault file contents are passed in as the result of the read. -/
def unlock (pm : PasswordManager) (file : Option Bytes) (master_password : String) :
    Except UnlockError (PasswordManager × Bool) :=
  match file with
  | none => Except.error UnlockError.fileNotFound
  | some encrypted_data =>
    match decrypt_data encrypted_data master_password with
    | Except.error _ => Except.ok (pm, false)
    | Except.ok data =>
      Except.ok ({ pm with
        entries := data.entries.map (fun e => (e.id, e)),
        master_password := some master_password,
        is_unlocked := true,
        last_save_checksum := some (compute_file_checksum encrypted_data) }, true)

/-- Claim C8: for every existing vault file whose bytes do not decrypt
under the supplied password, unlock returns false (a boolean result, not a
raised error) and causes no state change: the manager comes back exactly as
it was, entry table, master password, unlocked flag and cached checksum
included. -/
theorem unlock_wrong_password_no_change (pm : PasswordManager) (blob : Bytes)
    (pw : String) (e : CryptoError) (h : decrypt_data blob pw = Except.error e) :
    unlock pm (some blob) pw = Except.ok (pm, false) := by
  simp [unlock, h]

/-- Witness for C8: a concrete locked manager, a vault file whose bytes
cannot decrypt, and a guessed password. -/
theorem unlock_wrong_password_no_change_witness :
    unlock ⟨none, [], false, none⟩ (some [0, 1, 2]) "guessed-password" =
      Except.ok (⟨none, [], false, none⟩, false) :=
  unlock_wrong_password_no_change ⟨none, [], false, none⟩ [0, 1, 2] "guessed-password"
    CryptoError.malformedInput rfl

/-- Comparison used by the retention sort, modeling
backups.sort(key=mtime, reverse=True): a comes no later than b in
descending modification-time order. -/
def newerEq (a b : Snap) : Bool :=
  decide (b.mtime ≤ a.mtime)

theorem newerEq_trans : ∀ a b c : Snap, newerEq a b → newerEq b c → newerEq a c := by
  intro a b c hab hbc
  simp only [newerEq, decide_eq_true_eq] at hab hbc ⊢
  omega

theorem newerEq_total : ∀ a b : Snap, newerEq a b || newerEq b a := by
  intro a b
  simp only [newerEq, Bool.or_eq_true, decide_eq_true_eq]
  omega

/-- Model of _cleanup_old_backups(keep): list the snapshot files, sort them
by modification time descending and delete all but the first keep many; the
result is what remains in the backup directory. -/
def _cleanup_old_backups (backups : List Snap) (keep : Nat) : List Snap :=
  (backups.mergeSort newerEq).take keep

/-- Model of _create_backup(): copy the primary file to a fresh timestamped
snapshot (shutil.copy2 preserves contents and modification time; both
arrive with the snapshot argument), then prune to the 10 most recent. -/
def _create_backup (backups : List Snap) (snap : Snap) : List Snap :=
  _cleanup_old_backups (backups ++ [snap]) 10

theorem cleanup_length_le (backups : List Snap) (keep : Nat) :
    (_cleanup_old_backups backups keep).length ≤ keep := by
  simp only [_cleanup_old_backups, List.length_take]
  omega

theorem cleanup_kept_newer (backups : List Snap) (keep : Nat) :
    ∀ x ∈ backups, x ∉ _cleanup_old_backups backups keep →
      ∀ y ∈ _cleanup_old_backups backups keep, x.mtime ≤ y.mtime := by
  intro x hx hnx y hy
  have hsorted : (backups.mergeSort newerEq).Pairwise (fun a b => newerEq a b) :=
    List.sorted_mergeSort newerEq_trans newerEq_total backups
  have hxs : x ∈ backups.mergeSort newerEq := List.mem_mergeSort.mpr hx
  have hsplit := List.take_append_drop keep (backups.mergeSort newerEq)
  have hxdrop : x ∈ (backups.mergeSort newerEq).drop keep := by
    rw [← hsplit] at hxs
    rcases List.mem_append.mp hxs with h1 | h1
    · exact absurd h1 hnx
    · exact h1
  have hpw : ((backups.mergeSort newerEq).take keep ++
      (backups.mergeSort newerEq).drop keep).Pairwise (fun a b => newerEq a b) := by
    rw [hsplit]
    exact hsorted
  have hcross := (List.pairwise_append.mp hpw).2.2 y hy x hxdrop
  simpa [newerEq] using hcross

/-- Claim C6: after every sequence of N at least 1 successful commits onto
an existing primary file, the backup directory holds at most 10 snapshots;
and every retention pass keeps exactly the most recently created snapshots:
any snapshot it deletes has modification time at most that of every
snapshot it retains (the source sorts by modification time descending and
deletes the rest). -/
theorem backup_retention (init : List Snap) (news : List Snap) (hne : news ≠ []) :
    (news.foldl _create_backup init).length ≤ 10 ∧
    ∀ (st : List Snap) (s : Snap), ∀ x ∈ st ++ [s],
      x ∉ _create_backup st s → ∀ y ∈ _create_backup st s, x.mtime ≤ y.mtime := by
  constructor
  · obtain ⟨l, b, hlb⟩ := (List.eq_nil_or_concat' news).resolve_left hne
    subst hlb
    rw [List.foldl_append, List.foldl_cons, List.foldl_nil]
    exact cleanup_length_le _ 10
  · intro st s x hx hnx y hy
    exact cleanup_kept_newer (st ++ [s]) 10 x hx hnx y hy

/-- Witness for C6: one commit onto an empty backup directory. -/
theorem backup_retention_witness :
    (([⟨"20240101_000000", 1, [0]⟩] : List Snap).foldl _create_backup []).length ≤ 10 :=
  (backup_retention [] [⟨"20240101_000000", 1, [0]⟩] (by decide)).1

/-- Helper for the create-vault claim: a snapshot strictly fresher than
every existing one survives the retention pass. -/
theorem mem_create_backup_of_fresh (backups : List Snap) (s : Snap)
    (h : ∀ x ∈ backups, x.mtime < s.mtime) : s ∈ _create_backup backups s := by
  have hmem : s ∈ (backups ++ [s]).mergeSort newerEq := by
    rw [List.mem_mergeSort]
    exact List.mem_append.mpr (Or.inr (List.mem_singleton.mpr rfl))
  have hsorted : ((backups ++ [s]).mergeSort newerEq).Pairwise (fun a b => newerEq a b) :=
    List.sorted_mergeSort newerEq_trans newerEq_total (backups ++ [s])
  rw [_create_backup, _cleanup_old_backups]
  cases hsort : (backups ++ [s]).mergeSort newerEq with
  | nil => rw [hsort] at hmem; cases hmem
  | cons hd tl =>
    by_cases hhds : hd = s
    · rw [List.take_cons (by omega), hhds]
      exact List.mem_cons_self s _
    · exfalso
      have hhd : hd ∈ backups ++ [s] := by
        have hh : hd ∈ (backups ++ [s]).mergeSort newerEq := by
          rw [hsort]
          exact List.mem_cons_self hd tl
        exact List.mem_mergeSort.mp hh
      have hdb : hd ∈ backups := by
        rcases List.mem_append.mp hhd with h1 | h1
        · exact h1
        · exact absurd (List.mem_singleton.mp h1) hhds
      have hlt := h hd hdb
      have hstl : s ∈ tl := by
        rw [hsort] at hmem
        rcases List.mem_cons.mp hmem with h1 | h1
        · exact absurd h1.symm hhds
        · exact h1
      have hpair := hsorted
      rw [hsort] at hpair
      have hrel := (List.pairwise_cons.mp hpair).1 s hstl
      simp only [newerEq, decide_eq_true_eq] at hrel
      omega

/-- Files the vault engine touches: the primary vault file at vault_path,
the temp file at vault_path + '.tmp', and the backup directory. -/
structure FS where
  primary : Option Bytes
  temp : Option Bytes
  backups : List Snap
deriving DecidableEq

/-- Steps of the _save_vault commit sequence as filesystem transformations,
used to model execution interrupted (by a crash or an exception) after any
prefix of steps.  Step 1 writes the encoded bytes to the temp file; step 2
is the read-back verification, which touches no file; step 3 backs up the
existing primary (shutil.copy2 copies the primary's bytes and preserves its
modification time, both supplied with the parameters); step 4 is
os.remove(self.vault_path), guarded by an existence check like the source;
step 5 is shutil.move(temp_path, self.vault_path). -/
def commitSteps (written : Bytes) (stamp : String) (backupMtime : Nat) :
    List (FS → FS) :=
  [ fun fs => { fs with temp := some written },
    fun fs => fs,
    fun fs =>
      match fs.primary with
      | some b => { fs with backups := _create_backup fs.backups ⟨stamp, backupMtime, b⟩ }
      | none => fs,
    fun fs =>
      match fs.primary with
      | some _ => { fs with primary := none }
      | none => fs,
    fun fs => { fs with primary := fs.temp, temp := none } ]

/-- Run the first k commit steps: the filesystem state seen if execution
stops right after step k. -/
def runSteps (written : Bytes) (stamp : String) (backupMtime : Nat)
    (fs : FS) (k : Nat) : FS :=
  ((commitSteps written stamp backupMtime).take k).foldl (fun s f => f s) fs

/-- Claim C1 fails on the code: the replace in _save_vault is os.remove
followed by shutil.move, not an atomic rename.  Interruption at any point
through the backup step (k at most 3) leaves the primary bytes unchanged,
as the claim says; but interruption between the remove and the move (after
step 4, a point before the Committing step has finished) leaves the
primary file absent, contradicting the claim that the primary's bytes
always equal their pre-commit value and that the remove-then-rename
replace never leaves the primary absent. -/
theorem commit_interrupt_window (fs : FS) (written : Bytes) (stamp : String)
    (backupMtime : Nat) (b : Bytes) (h : fs.primary = some b) :
    (∀ k, k ≤ 3 → (runSteps written stamp backupMtime fs k).primary = some b) ∧
    (runSteps written stamp backupMtime fs 4).primary = none := by
  constructor
  · intro k hk
    interval_cases k <;> simp [runSteps, commitSteps, h]
  · simp [runSteps, commitSteps, h]

/-- Witness for the C1 divergence at a concrete filesystem: after the
remove step the primary file is gone. -/
theorem commit_interrupt_window_witness :
    (runSteps [9] "20240101_000000" 1 ⟨some [7], none, []⟩ 4).primary = none :=
  (commit_interrupt_window ⟨some [7], none, []⟩ [9] "20240101_000000" 1 [7] rfl).2

/-- Errors _save_vault raises, both RuntimeError in the source: the
locked-store guard (raised before the try block, touching no file), and
the wrapper around any staging, verification, backup or replace failure
(the PersistenceError of the spec). -/
inductive SaveError where
  | notUnlocked
  | persistence
deriving DecidableEq

/-- Environment model of the staging write in _save_vault:
open(temp, 'wb').write either raises, leaving the temp file holding
whatever partial bytes reached the disk before the handler deletes it,
completes but lands corrupted bytes (anything that makes the verification
read-back differ from the encoded blob), or completes cleanly. -/
inductive WriteFault where
  | raises (leftover : Option Bytes)
  | corrupts (actual : Bytes)
  | clean
deriving DecidableEq

/-- The dictionary _save_vault encodes: the format version, the save
instant, and the entry values of the in-memory table. -/
def vaultDoc (pm : PasswordManager) (now : String) : VaultDocument :=
  ⟨VERSION, now, pm.entries.map Prod.snd⟩

/-- Result of a _save_vault run: the outcome (the manager with its
refreshed checksum, or the raised error) together with the final
filesystem state. -/
structure SaveResult where
  outcome : Except SaveError PasswordManager
  fs : FS

/-- Steps of _save_vault after the staging write landed the bytes written
on disk: re-read and decrypt the temp file, compare the entry count with
the in-memory table, and on success back up an existing primary and
replace it with the temp file; on any verification failure delete the temp
artifact and raise, leaving the primary untouched. -/
def _save_vault_staged (pm : PasswordManager) (fs : FS) (pw : String)
    (written : Bytes) (stamp : String) (backupMtime : Nat) : SaveResult :=
  let fs1 : FS := { fs with temp := some written }
  match decrypt_data written pw with
  | Except.error _ => ⟨Except.error SaveError.persistence, { fs1 with temp := none }⟩
  | Except.ok decrypted =>
    if decrypted.entries.length ≠ pm.entries.length then
      ⟨Except.error SaveError.persistence, { fs1 with temp := none }⟩
    else
      let fs2 : FS :=
        match fs1.primary with
        | some b =>
          { fs1 with backups := _create_backup fs1.backups ⟨stamp, backupMtime, b⟩ }
        | none => fs1
      ⟨Except.ok { pm with last_save_checksum := some (compute_file_checksum written) },
        { fs2 with primary := some written, temp := none }⟩

/-- Model of _save_vault from password_manager.py: the locked-store guard
(Python truthiness makes an empty master password count as locked), the
encoding of the current document under a fresh salt and nonce, the staging
write under the fault model, then verification, backup and replace; any
exception inside the try block deletes the temp file and re-raises as the
persistence RuntimeError. -/
def _save_vault (pm : PasswordManager) (fs : FS) (now : String)
    (salt nonce : Bytes) (fault : WriteFault) (stamp : String)
    (backupMtime : Nat) : SaveResult :=
  match pm.master_password with
  | none => ⟨Except.error SaveError.notUnlocked, fs⟩
  | some pw =>
    if pm.is_unlocked = false ∨ pw = "" then
      ⟨Except.error SaveError.notUnlocked, fs⟩
    else
      let encrypted_data := encrypt_data (vaultDoc pm now) pw salt nonce
      match fault with
      | WriteFault.raises _ =>
        ⟨Except.error SaveError.persistence, { fs with temp := none }⟩
      | WriteFault.corrupts actual => _save_vault_staged pm fs pw actual stamp backupMtime
      | WriteFault.clean => _save_vault_staged pm fs pw encrypted_data stamp backupMtime

/-- The two ways the Staging or Verifying step of a commit can fail: the
temp write raises, or the bytes that landed do not decrypt back to a
document with the in-memory entry count. -/
def stagingOrVerifyFails (fault : WriteFault) (pw : String) (pm : PasswordManager) : Prop :=
  (∃ lo, fault = WriteFault.raises lo) ∨
  (∃ bs, fault = WriteFault.corrupts bs ∧
    ((∃ e, decrypt_data bs pw = Except.error e) ∨
      (∃ d, decrypt_data bs pw = Except.ok d ∧ d.entries.length ≠ pm.entries.length)))

/-- Claim C2: any failure during the Staging or Verifying steps of
_save_vault (a temp-file write failure, or a decode-and-compare
verification mismatch) leaves the primary vault file byte-for-byte
unchanged, deletes the temp artifact, leaves the backups untouched, and
raises the persistence RuntimeError; the error outcome carries no new
manager state, so the in-memory mutation stays in memory but is not
considered saved. -/
theorem save_failure_rollback (pm : PasswordManager) (fs : FS) (now : String)
    (salt nonce : Bytes) (fault : WriteFault) (stamp : String) (backupMtime : Nat)
    (pw : String) (hpw : pm.master_password = some pw) (hpw0 : pw ≠ "")
    (hu : pm.is_unlocked = true) (hfail : stagingOrVerifyFails fault pw pm) :
    (_save_vault pm fs now salt nonce fault stamp backupMtime).outcome =
      Except.error SaveError.persistence ∧
    (_save_vault pm fs now salt nonce fault stamp backupMtime).fs.primary = fs.primary ∧
    (_save_vault pm fs now salt nonce fault stamp backupMtime).fs.temp = none ∧
    (_save_vault pm fs now salt nonce fault stamp backupMtime).fs.backups = fs.backups := by
  rcases hfail with ⟨lo, rfl⟩ | ⟨bs, rfl, hver⟩
  · refine ⟨?_, ?_, ?_, ?_⟩ <;> simp [_save_vault, hpw, hu, hpw0]
  · rcases hver with ⟨e, he⟩ | ⟨d, hd, hlen⟩
    · refine ⟨?_, ?_, ?_, ?_⟩ <;> simp [_save_vault, _save_vault_staged, hpw, hu, hpw0, he]
    · refine ⟨?_, ?_, ?_, ?_⟩ <;>
        simp [_save_vault, _save_vault_staged, hpw, hu, hpw0, hd, hlen]

/-- Witness for C2: a concrete unlocked manager whose staging write
raises. -/
theorem save_failure_rollback_witness :
    (_save_vault pmW ⟨some [7], none, []⟩ "T" [] [] (WriteFault.raises none)
      "20240101_000000" 1).outcome = Except.error SaveError.persistence :=
  (save_failure_rollback pmW ⟨some [7], none, []⟩ "T" [] [] (WriteFault.raises none)
    "20240101_000000" 1 "password123" rfl (by decide) rfl (Or.inl ⟨none, rfl⟩)).1

/-- Errors create_vault can raise: the ValueError for a master password
shorter than 8 characters (raised before any state change), or a
propagated save failure. -/
inductive CreateError where
  | valueError
  | saveError (e : SaveError)

/-- Model of create_vault(master_password) from password_manager.py:
reject passwords shorter than 8 characters, otherwise set the master
password, clear the entry table, mark the store unlocked, and run
_save_vault; there is no check that the primary file is absent.  The
triple is the Python result (True, or the raised error), the in-memory
manager (already mutated even when the save raises), and the filesystem. -/
def create_vault (pm : PasswordManager) (fs : FS) (master_password now : String)
    (salt nonce : Bytes) (fault : WriteFault) (stamp : String) (backupMtime : Nat) :
    Except CreateError Unit × PasswordManager × FS :=
  if master_password.length < 8 then
    (Except.error CreateError.valueError, pm, fs)
  else
    let pm1 : PasswordManager :=
      { pm with master_password := some master_password, entries := [], is_unlocked := true }
    let r := _save_vault pm1 fs now salt nonce fault stamp backupMtime
    match r.outcome with
    | Except.error e => (Except.error (CreateError.saveError e), pm1, r.fs)
    | Except.ok pm2 => (Except.ok (), pm2, r.fs)

/-- Claim C9: create_vault does not require the primary vault file to be
absent: with a password of length at least 8 and a fault-free write, a
call over an existing primary file succeeds, backs the old primary's bytes
up into the backup directory (and the snapshot is retained, being fresher
than every existing one), replaces the primary with a newly encrypted
empty vault, and leaves the store unlocked with zero entries. -/
theorem create_vault_over_existing (pm : PasswordManager) (fs : FS)
    (mp now : String) (salt nonce : Bytes) (stamp : String) (backupMtime : Nat)
    (old : Bytes) (hlen : 8 ≤ mp.length) (hprim : fs.primary = some old)
    (hs : salt.length = SALT_SIZE) (hn : nonce.length = NONCE_SIZE)
    (hfresh : ∀ x ∈ fs.backups, x.mtime < backupMtime) :
    (create_vault pm fs mp now salt nonce WriteFault.clean stamp backupMtime).1 =
      Except.ok () ∧
    (create_vault pm fs mp now salt nonce WriteFault.clean stamp
      backupMtime).2.1.is_unlocked = true ∧
    (create_vault pm fs mp now salt nonce WriteFault.clean stamp
      backupMtime).2.1.entries = [] ∧
    (create_vault pm fs mp now salt nonce WriteFault.clean stamp
      backupMtime).2.1.master_password = some mp ∧
    (create_vault pm fs mp now salt nonce WriteFault.clean stamp
      backupMtime).2.2.primary = some (encrypt_data ⟨VERSION, now, []⟩ mp salt nonce) ∧
    (create_vault pm fs mp now salt nonce WriteFault.clean stamp
      backupMtime).2.2.temp = none ∧
    ∃ s ∈ (create_vault pm fs mp now salt nonce WriteFault.clean stamp
      backupMtime).2.2.backups, s.contents = old := by
  have hm : ¬ mp.length < 8 := by omega
  have hmp0 : mp ≠ "" := by
    intro h0
    rw [h0] at hlen
    exact absurd hlen (by decide)
  have hdec := decrypt_encrypt_eq_ok ⟨VERSION, now, []⟩ mp salt nonce hs hn
  have hstep : create_vault pm fs mp now salt nonce WriteFault.clean stamp backupMtime =
      (Except.ok (),
        ⟨some mp, [], true,
          some (compute_file_checksum (encrypt_data ⟨VERSION, now, []⟩ mp salt nonce))⟩,
        ⟨some (encrypt_data ⟨VERSION, now, []⟩ mp salt nonce), none,
          _create_backup fs.backups ⟨stamp, backupMtime, old⟩⟩) := by
    simp [create_vault, hm, _save_vault, hmp0, _save_vault_staged, vaultDoc, hdec, hprim]
  rw [hstep]
  refine ⟨rfl, rfl, rfl, rfl, rfl, rfl, ?_⟩
  exact ⟨⟨stamp, backupMtime, old⟩,
    mem_create_backup_of_fresh fs.backups ⟨stamp, backupMtime, old⟩ hfresh, rfl⟩

/-- Witness for C9: a concrete manager and a filesystem that already has a
primary vault file. -/
theorem create_vault_over_existing_witness :
    (create_vault ⟨none, [], false, none⟩ ⟨some [7], none, []⟩ "password123" "T"
      (List.replicate 32 0) (List.replicate 12 1) WriteFault.clean
      "20240101_000000" 1).1 = Except.ok () :=
  (create_vault_over_existing ⟨none, [], false, none⟩ ⟨some [7], none, []⟩
    "password123" "T" (List.replicate 32 0) (List.replicate 12 1)
    "20240101_000000" 1 [7] (by decide) rfl (by decide) (by decide) (by decide)).1
